import Mathlib

/-!
Verification development for the No-U-Turn Sampler implementation in
src/nuts.py (Hoffman & Gelman algorithm 6).

Scalars are modelled by the type F: exact rationals extended with the two
infinities and a NaN element, following IEEE/numpy semantics for the
operations the code uses (comparisons with NaN are false, inf - inf = NaN,
0 * inf = NaN, isfinite holds only of ordinary numbers).  Rounding and
overflow of doubles are not modelled: arithmetic on finite values is exact,
which is the "exact real arithmetic" reading used throughout the spec.
Vectors (numpy 1-D arrays) are lists of F with elementwise operations.

The transcendental functions exp, log, sqrt and the float power operator
are not rational-valued, so every definition that uses them takes a
MathOps record of abstract functions F -> F; universally quantified
theorems hold for every such record.  Concrete counterexample runs
instantiate it with expStub / logStub / sqrtStub / powStub, whose values at
the points actually consulted agree with the real functions on the side of
every comparison performed (this is checked at each use below).

Randomness (np.random.normal / uniform / exponential draws) is modelled by
an explicit stream of values us : Nat -> F together with a counter that is
advanced once per draw, in the order the code performs the draws; theorems
quantify over the stream.
-/

/-- Scalar values of the model: NaN, -inf, finite rationals, +inf. -/
inductive F where
  | nan : F
  | ninf : F
  | fin : ℚ → F
  | pinf : F
deriving DecidableEq

namespace F

/-- IEEE negation: exact, infinities swap, NaN propagates. -/
def neg : F → F
  | nan => nan
  | ninf => pinf
  | pinf => ninf
  | fin q => fin (-q)

/-- IEEE addition on the model: NaN propagates, inf + (-inf) = NaN. -/
def add : F → F → F
  | nan, _ => nan
  | _, nan => nan
  | pinf, ninf => nan
  | ninf, pinf => nan
  | pinf, _ => pinf
  | _, pinf => pinf
  | ninf, _ => ninf
  | _, ninf => ninf
  | fin a, fin b => fin (a + b)

/-- IEEE subtraction, a - b = a + (-b). -/
def sub (a b : F) : F := add a (neg b)

/-- IEEE multiplication: NaN propagates, 0 * inf = NaN, sign rules for inf. -/
def mul : F → F → F
  | nan, _ => nan
  | _, nan => nan
  | fin a, fin b => fin (a * b)
  | pinf, pinf => pinf
  | pinf, ninf => ninf
  | ninf, pinf => ninf
  | ninf, ninf => pinf
  | pinf, fin b => if 0 < b then pinf else if b < 0 then ninf else nan
  | fin a, pinf => if 0 < a then pinf else if a < 0 then ninf else nan
  | ninf, fin b => if 0 < b then ninf else if b < 0 then pinf else nan
  | fin a, ninf => if 0 < a then ninf else if a < 0 then pinf else nan

/-- Division following numpy float semantics; x/0 for x not 0 gives a signed
infinity, 0/0 and inf/inf give NaN.  (At every call site in the source the
denominator is in fact a positive finite number.) -/
def div : F → F → F
  | nan, _ => nan
  | _, nan => nan
  | fin a, fin b =>
      if b = 0 then (if a = 0 then nan else if 0 < a then pinf else ninf)
      else fin (a / b)
  | fin _, pinf => fin 0
  | fin _, ninf => fin 0
  | pinf, fin b => if 0 ≤ b then pinf else ninf
  | ninf, fin b => if 0 ≤ b then ninf else pinf
  | pinf, pinf => nan
  | pinf, ninf => nan
  | ninf, pinf => nan
  | ninf, ninf => nan

/-- IEEE strict comparison: any comparison with NaN is false. -/
def lt : F → F → Bool
  | nan, _ => false
  | _, nan => false
  | ninf, ninf => false
  | ninf, _ => true
  | _, ninf => false
  | pinf, pinf => false
  | _, pinf => true
  | pinf, _ => false
  | fin a, fin b => a < b

/-- IEEE non-strict comparison: any comparison with NaN is false. -/
def le : F → F → Bool
  | nan, _ => false
  | _, nan => false
  | ninf, _ => true
  | _, ninf => false
  | _, pinf => true
  | pinf, _ => false
  | fin a, fin b => a ≤ b

/-- np.isfinite. -/
def isFinite : F → Bool
  | fin _ => true
  | _ => false

/-- Python min of two floats: min(a, b) returns b if b < a else a. -/
def pymin (a b : F) : F := if lt b a then b else a

/-- Python max of two floats: max(a, b) returns b if a < b else a. -/
def pymax (a b : F) : F := if lt a b then b else a

/-- Embeds an int (the direction v) as a scalar. -/
def ofInt (v : Int) : F := fin v

end F

/-! ### Vectors: numpy 1-D arrays as lists of scalars -/

/-- Elementwise vector addition (numpy broadcasting is not needed: every
call site combines arrays of the common dimension D). -/
def vadd (x y : List F) : List F := List.zipWith F.add x y

/-- Elementwise vector subtraction. -/
def vsub (x y : List F) : List F := List.zipWith F.sub x y

/-- Elementwise vector product. -/
def vmul (x y : List F) : List F := List.zipWith F.mul x y

/-- Scalar times vector, scalar on the left as in the source expressions. -/
def smul (a : F) (x : List F) : List F := x.map (fun xi => F.mul a xi)

/-- Elementwise negation. -/
def vneg (x : List F) : List F := x.map F.neg

/-- np.dot of two 1-D arrays: the sum of the elementwise products,
accumulated left to right from 0. -/
def dot (x y : List F) : F := (List.zipWith F.mul x y).foldl F.add (F.fin 0)

/-! ### The oracle and the abstract transcendental functions -/

/-- The user-supplied callback: logp, grad = f(theta). -/
abbrev Oracle := List F → F × List F

/-- Abstract stand-ins for np.exp, np.log, np.sqrt and the float power
operator, which are not rational-valued.  Universal theorems quantify over
this record. -/
structure MathOps where
  exp : F → F
  log : F → F
  sqrt : F → F
  pow : F → F → F

/-! ### leapfrog (src/nuts.py lines 63-102) -/

/-- One leapfrog jump: half-step momentum update with the incoming
gradient, full position step scaled by the inverse mass, oracle
re-evaluation, second half-step momentum update with the new gradient.
Returns (thetaprime, rprime, gradprime, logpprime). -/
def leapfrog (theta r grad : List F) (epsilon : F) (f : Oracle) (inv_mass : List F) :
    List F × List F × List F × F :=
  let rhalf := vadd r (smul (F.mul (F.fin (1/2)) epsilon) grad)
  let thetaprime := vadd theta (vmul (smul epsilon inv_mass) rhalf)
  let fres := f thetaprime
  let gradprime := fres.2
  let logpprime := fres.1
  let rprime := vadd rhalf (smul (F.mul (F.fin (1/2)) epsilon) gradprime)
  (thetaprime, rprime, gradprime, logpprime)

/-! ### stop_criterion (src/nuts.py lines 137-154) -/

/-- dot(dtheta, inv_mass*rminus) >= 0 and dot(dtheta, inv_mass*rplus) >= 0
with dtheta = thetaplus - thetaminus. -/
def stop_criterion (thetaminus thetaplus rminus rplus inv_mass : List F) : Bool :=
  F.le (F.fin 0) (dot (vsub thetaplus thetaminus) (vmul inv_mass rminus)) &&
    F.le (F.fin 0) (dot (vsub thetaplus thetaminus) (vmul inv_mass rplus))

/-! ### build_tree (src/nuts.py lines 157-205) -/

/-- The thirteen return values of build_tree.  nprime and nalphaprime are
counts (the source keeps them as nonnegative Python ints); sprime is the
0/1 continuation flag (the source mixes bool False with ints 0/1, compared
against 1, which this collapses to 0/1). -/
structure BT where
  thetaminus : List F
  rminus : List F
  gradminus : List F
  thetaplus : List F
  rplus : List F
  gradplus : List F
  thetaprime : List F
  gradprime : List F
  logpprime : F
  nprime : ℕ
  sprime : ℕ
  alphaprime : F
  nalphaprime : ℕ
deriving DecidableEq

/-- The main recursion.  us is the stream of np.random.uniform draws and k
the index of the next unread draw; the returned index accounts for the
single draw the recursive case performs when its second subtree is built. -/
def build_tree (mo : MathOps) (f : Oracle) (us : ℕ → F) (logu : F) (v : Int)
    (epsilon : F) (joint0 : F) (inv_mass_chol inv_mass : List F) :
    ℕ → List F → List F → List F → ℕ → BT × ℕ
  | 0, theta, r, grad, k =>
      -- Base case: one leapfrog step in the direction v.
      let lf := leapfrog theta r grad (F.mul (F.ofInt v) epsilon) f inv_mass
      let thetaprime := lf.1
      let rprime := lf.2.1
      let gradprime := lf.2.2.1
      let logpprime := lf.2.2.2
      let invM_cholrprime := vmul inv_mass_chol rprime
      let joint := F.sub logpprime
        (F.mul (F.fin (1/2)) (dot invM_cholrprime invM_cholrprime))
      let nprime : ℕ := if F.lt logu joint then 1 else 0
      let sprime : ℕ :=
        if joint.isFinite = true ∧ F.lt (F.sub logu (F.fin 1000)) joint = true then 1 else 0
      let alphaprime : F :=
        if joint.isFinite = true then F.pymin (F.fin 1) (mo.exp (F.sub joint joint0))
        else F.fin 0
      ({ thetaminus := thetaprime, rminus := rprime, gradminus := gradprime,
         thetaplus := thetaprime, rplus := rprime, gradplus := gradprime,
         thetaprime := thetaprime, gradprime := gradprime, logpprime := logpprime,
         nprime := nprime, sprime := sprime, alphaprime := alphaprime,
         nalphaprime := 1 }, k)
  | j + 1, theta, r, grad, k =>
      -- Recursion: build the left and right subtrees of height j.
      let p1 := build_tree mo f us logu v epsilon joint0 inv_mass_chol inv_mass j theta r grad k
      let t1 := p1.1
      let k1 := p1.2
      if t1.sprime = 1 then
        let p2 :=
          if v = -1 then
            build_tree mo f us logu v epsilon joint0 inv_mass_chol inv_mass j
              t1.thetaminus t1.rminus t1.gradminus k1
          else
            build_tree mo f us logu v epsilon joint0 inv_mass_chol inv_mass j
              t1.thetaplus t1.rplus t1.gradplus k1
        let t2 := p2.1
        let k2 := p2.2
        let thetaminus := if v = -1 then t2.thetaminus else t1.thetaminus
        let rminus := if v = -1 then t2.rminus else t1.rminus
        let gradminus := if v = -1 then t2.gradminus else t1.gradminus
        let thetaplus := if v = -1 then t1.thetaplus else t2.thetaplus
        let rplus := if v = -1 then t1.rplus else t2.rplus
        let gradplus := if v = -1 then t1.gradplus else t2.gradplus
        -- Choose which subtree to propagate a sample up from.
        let takeSecond :=
          F.lt (us k2)
            (F.div (F.fin t2.nprime) (F.pymax (F.fin (t1.nprime + t2.nprime)) (F.fin 1)))
        let thetaprime := if takeSecond then t2.thetaprime else t1.thetaprime
        let gradprime := if takeSecond then t2.gradprime else t1.gradprime
        let logpprime := if takeSecond then t2.logpprime else t1.logpprime
        let nprime := t1.nprime + t2.nprime
        let sprime : ℕ :=
          if t1.sprime ≠ 0 ∧ t2.sprime ≠ 0 ∧
              stop_criterion thetaminus thetaplus rminus rplus inv_mass = true
          then 1 else 0
        ({ thetaminus := thetaminus, rminus := rminus, gradminus := gradminus,
           thetaplus := thetaplus, rplus := rplus, gradplus := gradplus,
           thetaprime := thetaprime, gradprime := gradprime, logpprime := logpprime,
           nprime := nprime, sprime := sprime,
           alphaprime := F.add t1.alphaprime t2.alphaprime,
           nalphaprime := t1.nalphaprime + t2.nalphaprime }, k2 + 1)
      else p1

/-! ### find_reasonable_epsilon (src/nuts.py lines 105-134) -/

/-- D pseudo-random draws starting at stream position k. -/
def drawVec (us : ℕ → F) (k D : ℕ) : List F := (List.range D).map (fun i => us (k + i))

/-- The halving loop of find_reasonable_epsilon: repeat a trial leapfrog
step at epsilon*kk, halving kk, until the resulting log-density and
gradient are all finite.  The source loop has no iteration cap, so the
model takes fuel and returns none when the loop has not exited within
fuel rounds.  Returns (kk, rprime, gradprime, logpprime) of the last step. -/
def freHalve (f : Oracle) (theta0 r0 grad0 : List F) (epsilon : F) (inv_mass : List F) :
    ℕ → F → Option (F × List F × List F × F)
  | 0, _ => none
  | fuel + 1, kk =>
      let lf := leapfrog theta0 r0 grad0 (F.mul epsilon kk) f inv_mass
      if lf.2.2.2.isFinite = true ∧ lf.2.2.1.all F.isFinite = true then
        some (kk, lf.2.1, lf.2.2.1, lf.2.2.2)
      else
        freHalve f theta0 r0 grad0 epsilon inv_mass fuel (F.mul kk (F.fin (1/2)))

/-- The bracketing loop of find_reasonable_epsilon: while
a*logacceptprob > -a*log 2, multiply epsilon by 2**a and recompute the
log-acceptance probability from the original state.  Unbounded in the
source, hence fuel. -/
def freBracket (mo : MathOps) (f : Oracle) (theta0 r0 grad0 : List F)
    (inv_mass : List F) (logp0 a : F) : ℕ → F → F → Option F
  | 0, _, _ => none
  | fuel + 1, epsilon, logacceptprob =>
      if F.lt (F.mul (F.neg a) (mo.log (F.fin 2))) (F.mul a logacceptprob) then
        let epsilon2 := F.mul epsilon (mo.pow (F.fin 2) a)
        let lf := leapfrog theta0 r0 grad0 epsilon2 f inv_mass
        let rprime := lf.2.1
        let logpprime := lf.2.2.2
        let lap2 := F.sub (F.sub logpprime logp0)
          (F.mul (F.fin (1/2))
            (F.sub (dot rprime (vmul inv_mass rprime)) (dot r0 (vmul inv_mass r0))))
        freBracket mo f theta0 r0 grad0 inv_mass logp0 a fuel epsilon2 lap2
      else some epsilon

/-- Heuristic for choosing an initial epsilon.  Consumes D normal draws
from the stream (returned value includes the advanced stream index). -/
def find_reasonable_epsilon (mo : MathOps) (f : Oracle) (theta0 grad0 : List F)
    (logp0 : F) (epsilon0 : F) (inv_mass : List F) (us : ℕ → F) (k : ℕ) (fuel : ℕ) :
    Option (F × ℕ) :=
  let epsilon := epsilon0
  let r0 := drawVec us k theta0.length
  let k1 := k + theta0.length
  match freHalve f theta0 r0 grad0 epsilon inv_mass fuel (F.fin 1) with
  | none => none
  | some (kk, rprime, _, logpprime) =>
      let epsilon1 := F.mul (F.mul (F.fin (1/2)) kk) epsilon
      let logacceptprob := F.sub (F.sub logpprime logp0)
        (F.mul (F.fin (1/2))
          (F.sub (dot rprime (vmul inv_mass rprime)) (dot r0 (vmul inv_mass r0))))
      let a : F :=
        F.sub (F.mul (F.fin 2) (if F.lt (F.fin (1/2)) (mo.exp logacceptprob) then F.fin 1 else F.fin 0))
          (F.fin 1)
      match freBracket mo f theta0 r0 grad0 inv_mass logp0 a fuel epsilon1 logacceptprob with
      | none => none
      | some epsilonF => some (epsilonF, k1)

/-! ### The doubling loop inside one outer iteration of nuts6
    (src/nuts.py lines 315-342) -/

/-- Quantities fixed for the whole doubling loop of one outer iteration. -/
structure LoopParams where
  mo : MathOps
  f : Oracle
  us : ℕ → F
  logu : F
  epsilon : F
  joint : F
  inv_mass_chol : List F
  inv_mass : List F
  max_tree_depth : ℕ

/-- Mutable state of the doubling loop (plus the iteration outputs sample,
lnprobm, logp, grad that the loop may overwrite on acceptance). -/
structure LoopState where
  thetaminus : List F
  rminus : List F
  gradminus : List F
  thetaplus : List F
  rplus : List F
  gradplus : List F
  sample : List F
  lnprobm : F
  logp : F
  grad : List F
  j : ℕ
  n : ℕ
  s : ℕ
  alpha : F
  nalpha : ℕ
  k : ℕ
deriving DecidableEq

/-- Python int() of a condition: the 0/1 flag. -/
def contFlag (c : Prop) [Decidable c] : ℕ := if c then 1 else 0

/-- One round of the doubling loop: draw a direction, build a tree of the
current depth from the matching endpoint, Metropolis-accept its candidate
with probability min(1, nprime/n) when the subtree is still valid, then
update n, the depth, and the continuation flag s. -/
def loopBody (p : LoopParams) (st : LoopState) : LoopState :=
  let v : Int := if F.lt (p.us st.k) (F.fin (1/2)) then 1 else -1
  let k1 := st.k + 1
  let pt :=
    if v = -1 then
      build_tree p.mo p.f p.us p.logu v p.epsilon p.joint p.inv_mass_chol p.inv_mass
        st.j st.thetaminus st.rminus st.gradminus k1
    else
      build_tree p.mo p.f p.us p.logu v p.epsilon p.joint p.inv_mass_chol p.inv_mass
        st.j st.thetaplus st.rplus st.gradplus k1
  let t := pt.1
  let k2 := pt.2
  let thetaminus := if v = -1 then t.thetaminus else st.thetaminus
  let rminus := if v = -1 then t.rminus else st.rminus
  let gradminus := if v = -1 then t.gradminus else st.gradminus
  let thetaplus := if v = -1 then st.thetaplus else t.thetaplus
  let rplus := if v = -1 then st.rplus else t.rplus
  let gradplus := if v = -1 then st.gradplus else t.gradplus
  let tmp := F.pymin (F.fin 1) (F.div (F.fin t.nprime) (F.fin st.n))
  -- Python short-circuit: the uniform is drawn only when sprime == 1.
  let accept := if t.sprime = 1 then F.lt (p.us k2) tmp else false
  let k3 := if t.sprime = 1 then k2 + 1 else k2
  let sample := if accept then t.thetaprime else st.sample
  let lnprobm := if accept then t.logpprime else st.lnprobm
  let logp := if accept then t.logpprime else st.logp
  let grad := if accept then t.gradprime else st.grad
  let n := st.n + t.nprime
  let j := st.j + 1
  let s : ℕ :=
    contFlag (t.sprime ≠ 0 ∧
      stop_criterion thetaminus thetaplus rminus rplus p.inv_mass = true ∧
      j < p.max_tree_depth)
  { thetaminus := thetaminus, rminus := rminus, gradminus := gradminus,
    thetaplus := thetaplus, rplus := rplus, gradplus := gradplus,
    sample := sample, lnprobm := lnprobm, logp := logp, grad := grad,
    j := j, n := n, s := s, alpha := t.alphaprime, nalpha := t.nalphaprime, k := k3 }

/-- The while (s == 1) loop, with fuel: none means the fuel ran out while
the flag was still 1 (never happens with fuel max(max_tree_depth, 1),
proved below). -/
def innerLoop (p : LoopParams) : ℕ → LoopState → Option LoopState
  | fuel, st =>
      if st.s = 1 then
        match fuel with
        | 0 => none
        | fuel + 1 => innerLoop p fuel (loopBody p st)
      else some st

/-- The loop state nuts6 sets up before the doubling loop of iteration m:
both endpoints at the previous sample, fresh momentum r0, depth 0, n = 1,
s = 1. -/
def initLoopState (lastSample : List F) (lastLnprob : F) (logp : F) (grad : List F)
    (r0 : List F) (k : ℕ) : LoopState :=
  { thetaminus := lastSample, rminus := r0, gradminus := grad,
    thetaplus := lastSample, rplus := r0, gradplus := grad,
    sample := lastSample, lnprobm := lastLnprob, logp := logp, grad := grad,
    j := 0, n := 1, s := 1, alpha := F.fin 0, nalpha := 1, k := k }

/-! ### The outer loop of nuts6 (src/nuts.py lines 208-380) -/

/-- Quantities fixed for the whole nuts6 run. -/
structure Globals where
  mo : MathOps
  f : Oracle
  us : ℕ → F
  M : ℕ
  Madapt : ℕ
  delta : F
  max_tree_depth : ℕ
  estimate_mass : Bool
  mu : F
  D : ℕ

/-- State carried across outer iterations of nuts6.  samplesRev and
lnprobRev hold the rows written so far, most recent first (the source
writes into preallocated arrays by index; writes are in index order, once
per iteration, so a reversed list is an exact model). -/
structure OuterState where
  samplesRev : List (List F)
  lnprobRev : List F
  lastSample : List F
  lastLnprob : F
  logp : F
  grad : List F
  logepsilon : F
  logepsilonbar : F
  Hbar : F
  m_adapt : ℕ
  diag_mass_avg : List F
  diag_mass_N : ℕ
  mass_chol : List F
  inv_mass : List F
  inv_mass_chol : List F
  epsilon : F
  k : ℕ

/-- One outer iteration m of nuts6: resample the momentum and the slice
variable, run the doubling loop, then (during burn-in) update the dual
averaging state and the diagonal mass estimate, with the two dual-averaging
restarts at floor(0.25*Madapt) and floor(0.75*Madapt) and the mass-counter
reset at floor(0.5*Madapt); outside burn-in freeze logepsilon at
logepsilonbar.  In all cases the working step size becomes
exp(logepsilon). -/
def outerIter (g : Globals) (m : ℕ) (st : OuterState) : Option OuterState :=
  let invM_cholr0 := drawVec g.us st.k g.D
  let k1 := st.k + g.D
  let r0 := vmul st.mass_chol invM_cholr0
  let joint := F.sub st.logp (F.mul (F.fin (1/2)) (dot invM_cholr0 invM_cholr0))
  let logu := F.sub joint (g.us k1)
  let k2 := k1 + 1
  let p : LoopParams :=
    { mo := g.mo, f := g.f, us := g.us, logu := logu, epsilon := st.epsilon,
      joint := joint, inv_mass_chol := st.inv_mass_chol, inv_mass := st.inv_mass,
      max_tree_depth := g.max_tree_depth }
  match innerLoop p (max g.max_tree_depth 1)
      (initLoopState st.lastSample st.lastLnprob st.logp st.grad r0 k2) with
  | none => none
  | some lst =>
      let st1 : OuterState :=
        { st with
          samplesRev := lst.sample :: st.samplesRev,
          lnprobRev := lst.lnprobm :: st.lnprobRev,
          lastSample := lst.sample, lastLnprob := lst.lnprobm,
          logp := lst.logp, grad := lst.grad, k := lst.k }
      if m ≤ g.Madapt then
        let eta := F.div (F.fin 1) (F.fin (st.m_adapt + 10))
        let HbarA := F.add (F.mul (F.sub (F.fin 1) eta) st.Hbar)
          (F.mul eta (F.sub g.delta (F.div lst.alpha (F.fin lst.nalpha))))
        let logepsilonA := F.sub g.mu
          (F.mul (F.div (g.mo.sqrt (F.fin st.m_adapt)) (F.fin (1/20))) HbarA)
        let eta2 := g.mo.pow (F.fin st.m_adapt) (F.fin (-3/4))
        let logepsilonbarA := F.add (F.mul (F.sub (F.fin 1) eta2) st.logepsilonbar)
          (F.mul eta2 logepsilonA)
        let m_adaptA := st.m_adapt + 1
        let massT :=
          if g.estimate_mass then
            let dmnA := st.diag_mass_N + 1
            let dmaA := vadd st.diag_mass_avg
              ((vsub (vmul lst.grad lst.grad) st.diag_mass_avg).map
                (fun x => F.div x (F.fin dmnA)))
            (dmaA, dmnA, dmaA.map g.mo.sqrt, dmaA.map (fun x => F.div (F.fin 1) x),
              (dmaA.map g.mo.sqrt).map (fun x => F.div (F.fin 1) x))
          else
            (st.diag_mass_avg, st.diag_mass_N, st.mass_chol, st.inv_mass,
              st.inv_mass_chol)
        let daT :=
          if m = g.Madapt / 4 ∨ m = 3 * g.Madapt / 4 then
            (logepsilonbarA, (F.fin 0 : F), (F.fin 0 : F), 1)
          else (logepsilonA, logepsilonbarA, HbarA, m_adaptA)
        let dmn2 := if m = g.Madapt / 2 then 1 else massT.2.1
        some { st1 with
          logepsilon := daT.1, logepsilonbar := daT.2.1, Hbar := daT.2.2.1,
          m_adapt := daT.2.2.2,
          diag_mass_avg := massT.1, diag_mass_N := dmn2,
          mass_chol := massT.2.2.1, inv_mass := massT.2.2.2.1,
          inv_mass_chol := massT.2.2.2.2,
          epsilon := g.mo.exp daT.1 }
      else
        some { st1 with
          logepsilon := st.logepsilonbar,
          epsilon := g.mo.exp st.logepsilonbar }

/-- Runs the outer iterations for the listed values of m (range(1, M+Madapt)). -/
def runIters (g : Globals) : List ℕ → OuterState → Option OuterState
  | [], st => some st
  | m :: ms, st =>
      match outerIter g m st with
      | none => none
      | some st2 => runIters g ms st2

/-- nuts6 after input validation, on a plain 1-D position vector.
Returns the M+Madapt-Madapt retained samples, their log-densities, and the
final (epsilon, inv_mass) pair; none when one of the unbounded source loops
fails to exit within fuel rounds. -/
def nuts6Run (mo : MathOps) (f : Oracle) (fuel : ℕ) (M Madapt : ℕ) (theta0 : List F)
    (delta : F) (max_tree_depth : ℕ) (epsilon0 : F) (estimate_mass : Bool)
    (us : ℕ → F) : Option (List (List F) × List F × (F × List F)) :=
  let D := theta0.length
  let fres := f theta0
  let logp := fres.1
  let grad := fres.2
  let massInit :=
    if estimate_mass then
      -- diag_mass_avg = 0.8*grad**2 + (1-0.8), elementwise
      let dma := grad.map (fun gi => F.add (F.mul (F.fin (4/5)) (F.mul gi gi)) (F.fin (1/5)))
      (dma, dma.map mo.sqrt, dma.map (fun x => F.div (F.fin 1) x),
        (dma.map mo.sqrt).map (fun x => F.div (F.fin 1) x))
    else
      -- the scalars 1.0 broadcast over dimension D
      (List.replicate D (F.fin 1), List.replicate D (F.fin 1),
        List.replicate D (F.fin 1), List.replicate D (F.fin 1))
  match find_reasonable_epsilon mo f theta0 grad logp epsilon0 massInit.2.2.1 us 0 fuel with
  | none => none
  | some (epsilon, k0) =>
      let g : Globals :=
        { mo := mo, f := f, us := us, M := M, Madapt := Madapt, delta := delta,
          max_tree_depth := max_tree_depth, estimate_mass := estimate_mass,
          mu := mo.log (F.mul (F.fin 10) epsilon), D := D }
      let st0 : OuterState :=
        { samplesRev := [theta0], lnprobRev := [logp], lastSample := theta0,
          lastLnprob := logp, logp := logp, grad := grad,
          logepsilon := mo.log epsilon, logepsilonbar := F.fin 0, Hbar := F.fin 0,
          m_adapt := 1, diag_mass_avg := massInit.1, diag_mass_N := 1,
          mass_chol := massInit.2.1, inv_mass := massInit.2.2.1,
          inv_mass_chol := massInit.2.2.2, epsilon := epsilon, k := k0 }
      match runIters g (List.range' 1 (M + Madapt - 1)) st0 with
      | none => none
      | some stF =>
          some (stF.samplesRev.reverse.drop Madapt, stF.lnprobRev.reverse.drop Madapt,
            (stF.epsilon, stF.inv_mass))

/-! ### Input validation of nuts6 (src/nuts.py lines 252-255) -/

/-- The shapes the initial position argument can have: a scalar (rank 0), a
flat vector (rank 1), or a rank >= 2 array. -/
inductive PyArr where
  | scalar : F → PyArr
  | vec : List F → PyArr
  | mat : List (List F) → PyArr
deriving DecidableEq

/-- len(np.shape(theta0)). -/
def PyArr.rank : PyArr → ℕ
  | scalar _ => 0
  | vec _ => 1
  | mat _ => 2

/-- The two failure modes of the nuts6 prelude. -/
inductive PyErr where
  | valueError : String → PyErr
  | typeError : PyErr
deriving DecidableEq

/-- Lines 252-255 of the source: the explicit rank check raises ValueError
only for rank > 1; then D = len(theta0) raises TypeError for an unsized
(rank 0) input.  A rank-1 input passes and its data is handed on. -/
def nuts6Validate : PyArr → Except PyErr (List F)
  | a =>
      if a.rank > 1 then
        Except.error (PyErr.valueError "theta0 is expected to be a 1-D array")
      else
        match a with
        | PyArr.vec xs => Except.ok xs
        | PyArr.scalar _ => Except.error PyErr.typeError
        | PyArr.mat _ => Except.error PyErr.typeError

/-- Full nuts6 entry point: validate the initial position, then run. -/
def nuts6 (mo : MathOps) (f : Oracle) (fuel : ℕ) (M Madapt : ℕ) (theta0 : PyArr)
    (delta : F) (max_tree_depth : ℕ) (epsilon0 : F) (estimate_mass : Bool)
    (us : ℕ → F) :
    Except PyErr (Option (List (List F) × List F × (F × List F))) :=
  match nuts6Validate theta0 with
  | Except.error e => Except.error e
  | Except.ok th =>
      Except.ok (nuts6Run mo f fuel M Madapt th delta max_tree_depth epsilon0
        estimate_mass us)

/-! ### Concrete stand-ins used by counterexamples and witnesses

The stub transcendental functions below agree with the real np.exp, np.log,
np.sqrt, ** at every point where a concrete run below consults them, in the
only way the run observes them (the side of a comparison, or an exact
value at an argument where the real function is exact):
exp 0 = 1, exp of a negative argument lies in (0, 1], exp(-1) <= 1/2 is on
the same side of 1/2 as the real exp(-1), exp(-inf) = 0, exp(+inf) = +inf;
log 2 is in (0, 1); sqrt 1 = 1; 2**1 = 2 and 2**(-1) = 1/2; b**e for
b = 1 is 1. -/
def expStub : F → F
  | F.nan => F.nan
  | F.ninf => F.fin 0
  | F.pinf => F.pinf
  | F.fin q => if 0 ≤ q then F.fin (1 + q) else F.fin (1 / (1 - q))

/-- Stand-in for np.log; only log 2 (inside the bracketing-loop bound) and
values that never feed a comparison are consulted by the concrete runs. -/
def logStub : F → F
  | x => if x = F.fin 2 then F.fin (7/10) else F.fin 0

/-- Stand-in for np.sqrt; the runs only consult sqrt 1 = 1. -/
def sqrtStub : F → F
  | x => x

/-- Stand-in for the float power operator; the source only raises 2.0 to
a = +-1.0 and an adaptation counter to -0.75. -/
def powStub : F → F → F
  | b, e =>
      if e = F.fin 1 then b
      else if e = F.fin (-1) then F.div (F.fin 1) b
      else F.fin 1

/-- The stub transcendental bundle. -/
def moStub : MathOps :=
  { exp := expStub, log := logStub, sqrt := sqrtStub, pow := powStub }

/-- An oracle that is identically 0 with zero gradient. -/
def ozero : Oracle := fun _ => (F.fin 0, [F.fin 0])

/-- The always +infinity oracle of the divergence-propagation property. -/
def oinf : Oracle := fun _ => (F.pinf, [F.fin 0])

/-- The 1-dimensional oracle driving the concrete nuts6 run used against
the first-returned-sample claim: finite log-densities chosen so that the
step-size search exits quickly, the first doubling accepts the new point
theta = 1/4, and the second doubling halts on the divergence guard. -/
def oC6 : Oracle := fun th =>
  if th = [F.fin 0] then (F.fin 0, [F.fin 0])
  else if th = [F.fin 1] then (F.fin (-2), [F.fin 0])
  else if th = [F.fin (1/4)] then (F.fin (-1/8), [F.fin 0])
  else if th = [F.fin (-1/4)] then (F.fin (-1/8), [F.fin 16])
  else (F.fin 0, [F.fin 0])

/-- The pseudo-random stream for that run: one normal draw for the step
size search, then per outer iteration one normal, one exponential, and the
direction/Metropolis uniforms. -/
def usC6 : ℕ → F := fun k =>
  if k = 0 then F.fin 1
  else if k = 1 then F.fin (-1)
  else if k = 2 then F.fin (1/2)
  else if k ≤ 5 then F.fin (3/10)
  else F.fin 0

/-- The all-zeros stream. -/
def us0 : ℕ → F := fun _ => F.fin 0

/-- The concrete doubling-loop parameters for witnesses and the
counterexample: dimension 1, unit step and mass, the zero oracle, the
all-zeros stream, and the given depth bound. -/
def pC9 (d : ℕ) : LoopParams :=
  { mo := moStub, f := ozero, us := us0, logu := F.fin 0, epsilon := F.fin 1,
    joint := F.fin 0, inv_mass_chol := [F.fin 1], inv_mass := [F.fin 1],
    max_tree_depth := d }

/-- A concrete freshly initialized loop state. -/
def stC9 : LoopState := initLoopState [F.fin 0] (F.fin 0) (F.fin 0) [F.fin 0] [F.fin 0] 0

/-! ### Reachability inside one doubling loop -/

/-- States reachable inside one doubling loop: the initial state, and the
result of the body applied to a reachable state whose flag is still 1. -/
inductive LoopReach (p : LoopParams) (st0 : LoopState) : LoopState → Prop
  | refl : LoopReach p st0 st0
  | step {st : LoopState} : LoopReach p st0 st → st.s = 1 → LoopReach p st0 (loopBody p st)

/-! ### Theorems -/

namespace F

theorem add_comm (a b : F) : add a b = add b a := by
  cases a <;> cases b <;> simp [add] <;> ring

theorem neg_neg (a : F) : neg (neg a) = a := by
  cases a <;> simp [neg]

theorem neg_add (a b : F) : neg (add a b) = add (neg a) (neg b) := by
  cases a <;> cases b <;> simp [add, neg] <;> ring

theorem neg_mul (a b : F) : mul (neg a) b = neg (mul a b) := by
  cases a <;> cases b <;>
    simp only [mul, neg] <;>
    (try split_ifs) <;>
    first
      | rfl
      | (exfalso; linarith)
      | (congr 1; ring)
      | simp only [neg]

theorem mul_neg (a b : F) : mul a (neg b) = neg (mul a b) := by
  cases a <;> cases b <;>
    simp only [mul, neg] <;>
    (try split_ifs) <;>
    first
      | rfl
      | (exfalso; linarith)
      | (congr 1; ring)
      | simp only [neg]

theorem neg_mul_neg (a b : F) : mul (neg a) (neg b) = mul a b := by
  rw [neg_mul, mul_neg, neg_neg]

theorem isFinite_add {a b : F} (ha : a.isFinite = true) (hb : b.isFinite = true) :
    (add a b).isFinite = true := by
  cases a <;> cases b <;> simp_all [add, isFinite]

theorem isFinite_mul {a b : F} (ha : a.isFinite = true) (hb : b.isFinite = true) :
    (mul a b).isFinite = true := by
  cases a <;> cases b <;> simp_all [mul, isFinite]

/-- Cancellation used for leapfrog reversibility: adding a finite value and
then its negation is the identity (the original value may even be non
finite). -/
theorem add_add_neg_cancel (a t : F) (ht : t.isFinite = true) :
    add (add a t) (neg t) = a := by
  cases t <;> simp_all [isFinite]
  cases a <;> simp [add, neg] <;> ring

end F

theorem vadd_smul_cancel (c : F) (hc : c.isFinite = true) :
    ∀ (x y : List F), x.length = y.length → (∀ a ∈ y, a.isFinite = true) →
      vadd (vadd x (smul c y)) (smul (F.neg c) y) = x := by
  intro x
  induction x with
  | nil => intro y _ _; simp [vadd, smul]
  | cons a xs ih =>
      intro y hlen hy
      cases y with
      | nil => simp at hlen
      | cons b ys =>
          simp only [vadd, smul, List.map_cons, List.zipWith_cons_cons, List.cons.injEq]
          have hb : b.isFinite = true := hy b (by simp)
          constructor
          · rw [F.neg_mul, F.add_add_neg_cancel _ _ (F.isFinite_mul hc hb)]
          · exact ih ys (by simpa using hlen) (fun a ha => hy a (by simp [ha]))

theorem vadd_vmul_smul_cancel (c : F) (hc : c.isFinite = true) :
    ∀ (x m w : List F), x.length = m.length → x.length = w.length →
      (∀ a ∈ m, a.isFinite = true) → (∀ a ∈ w, a.isFinite = true) →
      vadd (vadd x (vmul (smul c m) w)) (vmul (smul (F.neg c) m) w) = x := by
  intro x
  induction x with
  | nil => intro m w _ _ _ _; simp [vadd, vmul, smul]
  | cons a xs ih =>
      intro m w hm hw hmf hwf
      cases m with
      | nil => simp at hm
      | cons mi ms =>
          cases w with
          | nil => simp at hw
          | cons wi ws =>
              simp only [vadd, vmul, smul, List.map_cons, List.zipWith_cons_cons,
                List.cons.injEq]
              have hmi : mi.isFinite = true := hmf mi (by simp)
              have hwi : wi.isFinite = true := hwf wi (by simp)
              constructor
              · rw [F.neg_mul, F.neg_mul,
                  F.add_add_neg_cancel _ _ (F.isFinite_mul (F.isFinite_mul hc hmi) hwi)]
              · exact ih ms ws (by simpa using hm) (by simpa using hw)
                  (fun a ha => hmf a (by simp [ha])) (fun a ha => hwf a (by simp [ha]))

theorem mem_vadd_isFinite {x y : List F} (hx : ∀ a ∈ x, a.isFinite = true)
    (hy : ∀ a ∈ y, a.isFinite = true) : ∀ a ∈ vadd x y, a.isFinite = true := by
  induction x generalizing y with
  | nil => simp [vadd]
  | cons b xs ih =>
      cases y with
      | nil => simp [vadd]
      | cons c ys =>
          intro a ha
          simp only [vadd, List.zipWith_cons_cons, List.mem_cons] at ha
          rcases ha with h | h
          · subst h
            exact F.isFinite_add (hx b (by simp)) (hy c (by simp))
          · exact ih (fun a ha => hx a (by simp [ha])) (fun a ha => hy a (by simp [ha])) a h

theorem mem_smul_isFinite {c : F} {x : List F} (hc : c.isFinite = true)
    (hx : ∀ a ∈ x, a.isFinite = true) : ∀ a ∈ smul c x, a.isFinite = true := by
  intro a ha
  simp only [smul, List.mem_map] at ha
  obtain ⟨b, hb, rfl⟩ := ha
  exact F.isFinite_mul hc (hx b hb)

theorem vmul_vneg_right (x y : List F) : vmul x (vneg y) = vneg (vmul x y) := by
  induction x generalizing y with
  | nil => simp [vmul, vneg]
  | cons a xs ih =>
      cases y with
      | nil => simp [vmul, vneg]
      | cons b ys =>
          simp only [vmul, vneg, List.map_cons, List.zipWith_cons_cons, F.mul_neg,
            List.cons.injEq, true_and]
          exact ih ys

theorem zipWith_mul_vneg_vneg (x y : List F) :
    List.zipWith F.mul (vneg x) (vneg y) = List.zipWith F.mul x y := by
  induction x generalizing y with
  | nil => simp [vneg]
  | cons a xs ih =>
      cases y with
      | nil => simp [vneg]
      | cons b ys =>
          simp only [vneg, List.map_cons, List.zipWith_cons_cons, F.neg_mul_neg,
            List.cons.injEq, true_and]
          exact ih ys

theorem vsub_antisymm (x y : List F) : vsub x y = vneg (vsub y x) := by
  induction x generalizing y with
  | nil => cases y <;> simp [vsub, vneg]
  | cons a xs ih =>
      cases y with
      | nil => simp [vsub, vneg]
      | cons b ys =>
          simp only [vsub, vneg, List.map_cons, List.zipWith_cons_cons, List.cons.injEq]
          refine ⟨?_, ih ys⟩
          show F.add a (F.neg b) = F.neg (F.add b (F.neg a))
          rw [F.neg_add, F.neg_neg, F.add_comm]

theorem dot_vneg_vneg (x y : List F) : dot (vneg x) (vneg y) = dot x y := by
  simp [dot, zipWith_mul_vneg_vneg]

theorem contFlag_eq_one {c : Prop} [Decidable c] : contFlag c = 1 ↔ c := by
  unfold contFlag
  split_ifs with h <;> simp [h]

/-! ### C1: the base case of build_tree -/

/-- C1: in the depth 0 base case of build_tree, after one leapfrog step in
direction v, with joint the new log-density minus the mass-weighted kinetic
energy: n = 1 iff logu < joint; s = 1 iff joint is finite and
logu - 1000 < joint; alpha = min(1, exp(joint - joint0)) when joint is
finite and 0 otherwise; nalpha = 1; and every minus/plus endpoint and the
candidate equal the single new point.  Holds for every input state, slice
threshold, direction, step size, stream and oracle. -/
theorem C1_build_tree_base (mo : MathOps) (f : Oracle) (us : ℕ → F) (logu : F)
    (v : Int) (epsilon joint0 : F) (imc im theta r grad : List F) (k : ℕ) :
    ((build_tree mo f us logu v epsilon joint0 imc im 0 theta r grad k).1.nprime = 1 ↔
      F.lt logu
        (F.sub (leapfrog theta r grad (F.mul (F.ofInt v) epsilon) f im).2.2.2
          (F.mul (F.fin (1/2))
            (dot (vmul imc (leapfrog theta r grad (F.mul (F.ofInt v) epsilon) f im).2.1)
              (vmul imc (leapfrog theta r grad (F.mul (F.ofInt v) epsilon) f im).2.1)))) = true) ∧
    ((build_tree mo f us logu v epsilon joint0 imc im 0 theta r grad k).1.sprime = 1 ↔
      ((F.sub (leapfrog theta r grad (F.mul (F.ofInt v) epsilon) f im).2.2.2
          (F.mul (F.fin (1/2))
            (dot (vmul imc (leapfrog theta r grad (F.mul (F.ofInt v) epsilon) f im).2.1)
              (vmul imc (leapfrog theta r grad (F.mul (F.ofInt v) epsilon) f im).2.1)))).isFinite = true ∧
       F.lt (F.sub logu (F.fin 1000))
        (F.sub (leapfrog theta r grad (F.mul (F.ofInt v) epsilon) f im).2.2.2
          (F.mul (F.fin (1/2))
            (dot (vmul imc (leapfrog theta r grad (F.mul (F.ofInt v) epsilon) f im).2.1)
              (vmul imc (leapfrog theta r grad (F.mul (F.ofInt v) epsilon) f im).2.1)))) = true)) ∧
    (build_tree mo f us logu v epsilon joint0 imc im 0 theta r grad k).1.alphaprime =
      (if (F.sub (leapfrog theta r grad (F.mul (F.ofInt v) epsilon) f im).2.2.2
          (F.mul (F.fin (1/2))
            (dot (vmul imc (leapfrog theta r grad (F.mul (F.ofInt v) epsilon) f im).2.1)
              (vmul imc (leapfrog theta r grad (F.mul (F.ofInt v) epsilon) f im).2.1)))).isFinite = true
       then F.pymin (F.fin 1)
        (mo.exp (F.sub
          (F.sub (leapfrog theta r grad (F.mul (F.ofInt v) epsilon) f im).2.2.2
            (F.mul (F.fin (1/2))
              (dot (vmul imc (leapfrog theta r grad (F.mul (F.ofInt v) epsilon) f im).2.1)
                (vmul imc (leapfrog theta r grad (F.mul (F.ofInt v) epsilon) f im).2.1))))
          joint0))
       else F.fin 0) ∧
    (build_tree mo f us logu v epsilon joint0 imc im 0 theta r grad k).1.nalphaprime = 1 ∧
    (build_tree mo f us logu v epsilon joint0 imc im 0 theta r grad k).1.thetaminus =
      (leapfrog theta r grad (F.mul (F.ofInt v) epsilon) f im).1 ∧
    (build_tree mo f us logu v epsilon joint0 imc im 0 theta r grad k).1.thetaplus =
      (leapfrog theta r grad (F.mul (F.ofInt v) epsilon) f im).1 ∧
    (build_tree mo f us logu v epsilon joint0 imc im 0 theta r grad k).1.rminus =
      (leapfrog theta r grad (F.mul (F.ofInt v) epsilon) f im).2.1 ∧
    (build_tree mo f us logu v epsilon joint0 imc im 0 theta r grad k).1.rplus =
      (leapfrog theta r grad (F.mul (F.ofInt v) epsilon) f im).2.1 ∧
    (build_tree mo f us logu v epsilon joint0 imc im 0 theta r grad k).1.gradminus =
      (leapfrog theta r grad (F.mul (F.ofInt v) epsilon) f im).2.2.1 ∧
    (build_tree mo f us logu v epsilon joint0 imc im 0 theta r grad k).1.gradplus =
      (leapfrog theta r grad (F.mul (F.ofInt v) epsilon) f im).2.2.1 ∧
    (build_tree mo f us logu v epsilon joint0 imc im 0 theta r grad k).1.thetaprime =
      (leapfrog theta r grad (F.mul (F.ofInt v) epsilon) f im).1 ∧
    (build_tree mo f us logu v epsilon joint0 imc im 0 theta r grad k).1.logpprime =
      (leapfrog theta r grad (F.mul (F.ofInt v) epsilon) f im).2.2.2 := by
  refine ⟨?_, ?_, ?_, ?_, ?_, ?_, ?_, ?_, ?_, ?_, ?_, ?_⟩ <;>
    simp only [build_tree] <;>
    (try rfl) <;>
    split_ifs with h <;>
    simp_all

/-! ### C3: the leapfrog contract -/

/-- Shared unfolding of leapfrog into its four components. -/
theorem leapfrog_eq (theta r grad : List F) (epsilon : F) (f : Oracle) (im : List F) :
    leapfrog theta r grad epsilon f im =
      (vadd theta (vmul (smul epsilon im)
        (vadd r (smul (F.mul (F.fin (1/2)) epsilon) grad))),
       vadd (vadd r (smul (F.mul (F.fin (1/2)) epsilon) grad))
        (smul (F.mul (F.fin (1/2)) epsilon)
          (f (vadd theta (vmul (smul epsilon im)
            (vadd r (smul (F.mul (F.fin (1/2)) epsilon) grad))))).2),
       (f (vadd theta (vmul (smul epsilon im)
         (vadd r (smul (F.mul (F.fin (1/2)) epsilon) grad))))).2,
       (f (vadd theta (vmul (smul epsilon im)
         (vadd r (smul (F.mul (F.fin (1/2)) epsilon) grad))))).1) := rfl

/-- C3: for every position, momentum, gradient, signed step size, oracle
and diagonal inverse mass, leapfrog returns exactly: the half-step momentum
r + 0.5*epsilon*grad with the incoming gradient, the position
theta + epsilon*inv_mass*r_half, the oracle value and gradient re-evaluated
at the new position (passed through unmodified, finite or not: there is no
error branch), and the momentum after a second half step with the new
gradient. -/
theorem C3_leapfrog_contract (theta r grad : List F) (epsilon : F) (f : Oracle)
    (inv_mass : List F) :
    (leapfrog theta r grad epsilon f inv_mass).1 =
      vadd theta (vmul (smul epsilon inv_mass)
        (vadd r (smul (F.mul (F.fin (1/2)) epsilon) grad))) ∧
    (leapfrog theta r grad epsilon f inv_mass).2.1 =
      vadd (vadd r (smul (F.mul (F.fin (1/2)) epsilon) grad))
        (smul (F.mul (F.fin (1/2)) epsilon)
          (f ((leapfrog theta r grad epsilon f inv_mass).1)).2) ∧
    (leapfrog theta r grad epsilon f inv_mass).2.2.1 =
      (f ((leapfrog theta r grad epsilon f inv_mass).1)).2 ∧
    (leapfrog theta r grad epsilon f inv_mass).2.2.2 =
      (f ((leapfrog theta r grad epsilon f inv_mass).1)).1 :=
  ⟨rfl, rfl, rfl, rfl⟩

/-! ### C5: stop criterion symmetry -/

/-- C5 counterexample: exchanging the endpoints together with their
momenta, without negating the momenta, changes the value of
stop_criterion: already in dimension 1 with both momenta 1 and unit mass,
swapping the endpoints 0 and 1 flips the sign of dtheta and hence the
result. -/
theorem C5_counterexample :
    stop_criterion [F.fin 0] [F.fin 1] [F.fin 1] [F.fin 1] [F.fin 1] = true ∧
    stop_criterion [F.fin 1] [F.fin 0] [F.fin 1] [F.fin 1] [F.fin 1] = false := by
  constructor <;>
    norm_num [stop_criterion, dot, vsub, vmul, F.le, F.sub, F.add, F.mul, F.neg]

/-- C5 amended: stop_criterion is symmetric under exchanging the endpoints
together with NEGATED momenta: stop_criterion(a, b, ra, rb) =
stop_criterion(b, a, -rb, -ra), for all positions, momenta and inverse
mass vectors. -/
theorem C5_stop_criterion_symm (a b ra rb inv_mass : List F) :
    stop_criterion a b ra rb inv_mass =
      stop_criterion b a (vneg rb) (vneg ra) inv_mass := by
  unfold stop_criterion
  rw [vsub_antisymm a b, vmul_vneg_right, vmul_vneg_right, dot_vneg_vneg, dot_vneg_vneg,
    Bool.and_comm]

/-! ### C4: leapfrog reversibility -/

/-- C4: leapfrog is time-reversible in exact arithmetic.  For finite step
size, momentum, gradient and inverse mass (positions may be arbitrary),
a deterministic oracle whose gradient at theta is the given grad, and a
finite oracle gradient at the intermediate position, stepping by epsilon
and then by -epsilon from the resulting (position, momentum, gradient)
returns exactly the original position and momentum. -/
theorem C4_leapfrog_reversible (f : Oracle) (theta r grad im : List F) (eps : F)
    (hlr : r.length = theta.length) (hlg : grad.length = theta.length)
    (hlim : im.length = theta.length)
    (heps : eps.isFinite = true)
    (hr : ∀ x ∈ r, x.isFinite = true) (hg : ∀ x ∈ grad, x.isFinite = true)
    (him : ∀ x ∈ im, x.isFinite = true)
    (hf0 : (f theta).2 = grad)
    (hglen : (leapfrog theta r grad eps f im).2.2.1.length = theta.length)
    (hgfin : ∀ x ∈ (leapfrog theta r grad eps f im).2.2.1, x.isFinite = true) :
    (leapfrog (leapfrog theta r grad eps f im).1 (leapfrog theta r grad eps f im).2.1
        (leapfrog theta r grad eps f im).2.2.1 (F.neg eps) f im).1 = theta ∧
    (leapfrog (leapfrog theta r grad eps f im).1 (leapfrog theta r grad eps f im).2.1
        (leapfrog theta r grad eps f im).2.2.1 (F.neg eps) f im).2.1 = r := by
  have hc : (F.mul (F.fin (1/2)) eps).isFinite = true := F.isFinite_mul rfl heps
  have hrh_len : (vadd r (smul (F.mul (F.fin (1/2)) eps) grad)).length = theta.length := by
    simp [vadd, smul, hlr, hlg]
  have hrh_fin : ∀ x ∈ vadd r (smul (F.mul (F.fin (1/2)) eps) grad), x.isFinite = true :=
    mem_vadd_isFinite hr (mem_smul_isFinite hc hg)
  simp only [leapfrog_eq] at hglen hgfin ⊢
  try dsimp only at hglen hgfin ⊢
  rw [F.mul_neg]
  -- the inner half-step momentum of the reverse step collapses to the
  -- forward half-step momentum
  rw [vadd_smul_cancel (F.mul (F.fin (1/2)) eps) hc _ _
    (by simp only [vadd, smul, List.length_zipWith, List.length_map] at hglen ⊢; omega)
    hgfin]
  constructor
  · -- position recovery
    rw [show smul (F.neg eps) im = smul (F.neg eps) im from rfl]
    exact vadd_vmul_smul_cancel eps heps theta im _ hlim.symm hrh_len.symm him hrh_fin
  · -- momentum recovery: the recovered position is theta, so the oracle
    -- returns the original gradient
    have hpos : vadd (vadd theta (vmul (smul eps im)
        (vadd r (smul (F.mul (F.fin (1/2)) eps) grad))))
        (vmul (smul (F.neg eps) im) (vadd r (smul (F.mul (F.fin (1/2)) eps) grad))) = theta :=
      vadd_vmul_smul_cancel eps heps theta im _ hlim.symm hrh_len.symm him hrh_fin
    rw [hpos, hf0]
    exact vadd_smul_cancel (F.mul (F.fin (1/2)) eps) hc r grad
      (by omega) hg

/-- C4 witness: a concrete reversibility round trip in dimension 1 with
unit step, unit mass and the zero oracle. -/
theorem C4_witness :
    (leapfrog (leapfrog [F.fin 0] [F.fin 1] [F.fin 0] (F.fin 1) ozero [F.fin 1]).1
        (leapfrog [F.fin 0] [F.fin 1] [F.fin 0] (F.fin 1) ozero [F.fin 1]).2.1
        (leapfrog [F.fin 0] [F.fin 1] [F.fin 0] (F.fin 1) ozero [F.fin 1]).2.2.1
        (F.neg (F.fin 1)) ozero [F.fin 1]).1 = [F.fin 0] ∧
    (leapfrog (leapfrog [F.fin 0] [F.fin 1] [F.fin 0] (F.fin 1) ozero [F.fin 1]).1
        (leapfrog [F.fin 0] [F.fin 1] [F.fin 0] (F.fin 1) ozero [F.fin 1]).2.1
        (leapfrog [F.fin 0] [F.fin 1] [F.fin 0] (F.fin 1) ozero [F.fin 1]).2.2.1
        (F.neg (F.fin 1)) ozero [F.fin 1]).2.1 = [F.fin 1] :=
  C4_leapfrog_reversible ozero [F.fin 0] [F.fin 1] [F.fin 0] [F.fin 1] (F.fin 1)
    rfl rfl rfl rfl
    (by simp [F.isFinite]) (by simp [F.isFinite]) (by simp [F.isFinite])
    rfl rfl
    (by
      rw [show (leapfrog [F.fin 0] [F.fin 1] [F.fin 0] (F.fin 1) ozero [F.fin 1]).2.2.1 =
        [F.fin 0] from rfl]
      simp [F.isFinite])

/-! ### C2: the tree validity count -/

/-- C2: for every build_tree call of depth j the returned count satisfies
n <= 2^j (n is a Nat in the model, mirroring the nonnegative int of the
source, so 0 <= n holds by type); and at depth j+1 the count is n1 + n2 of
the two depth-j subtrees when the first subtree's flag is 1 (the second
subtree growing from the minus endpoint when v = -1, else from the plus
endpoint), and n1 alone otherwise, the second subtree then not being
built. -/
theorem C2_tree_count (mo : MathOps) (f : Oracle) (us : ℕ → F) (logu : F) (v : Int)
    (epsilon joint0 : F) (imc im : List F) :
    (∀ (j : ℕ) (theta r grad : List F) (k : ℕ),
      (build_tree mo f us logu v epsilon joint0 imc im j theta r grad k).1.nprime ≤ 2 ^ j) ∧
    (∀ (j : ℕ) (theta r grad : List F) (k : ℕ),
      (build_tree mo f us logu v epsilon joint0 imc im (j + 1) theta r grad k).1.nprime =
        if (build_tree mo f us logu v epsilon joint0 imc im j theta r grad k).1.sprime = 1 then
          (build_tree mo f us logu v epsilon joint0 imc im j theta r grad k).1.nprime +
            (if v = -1 then
              build_tree mo f us logu v epsilon joint0 imc im j
                (build_tree mo f us logu v epsilon joint0 imc im j theta r grad k).1.thetaminus
                (build_tree mo f us logu v epsilon joint0 imc im j theta r grad k).1.rminus
                (build_tree mo f us logu v epsilon joint0 imc im j theta r grad k).1.gradminus
                (build_tree mo f us logu v epsilon joint0 imc im j theta r grad k).2
            else
              build_tree mo f us logu v epsilon joint0 imc im j
                (build_tree mo f us logu v epsilon joint0 imc im j theta r grad k).1.thetaplus
                (build_tree mo f us logu v epsilon joint0 imc im j theta r grad k).1.rplus
                (build_tree mo f us logu v epsilon joint0 imc im j theta r grad k).1.gradplus
                (build_tree mo f us logu v epsilon joint0 imc im j theta r grad k).2).1.nprime
        else (build_tree mo f us logu v epsilon joint0 imc im j theta r grad k).1.nprime) := by
  constructor
  · intro j
    induction j with
    | zero =>
        intro theta r grad k
        simp only [build_tree, pow_zero]
        split_ifs <;> simp
    | succ j ih =>
        intro theta r grad k
        simp only [build_tree]
        by_cases h1 :
          (build_tree mo f us logu v epsilon joint0 imc im j theta r grad k).1.sprime = 1
        · simp only [if_pos h1]
          by_cases h2 : v = -1
          · simp only [if_pos h2]
            have hle1 := ih theta r grad k
            have hle2 := ih
              (build_tree mo f us logu v epsilon joint0 imc im j theta r grad k).1.thetaminus
              (build_tree mo f us logu v epsilon joint0 imc im j theta r grad k).1.rminus
              (build_tree mo f us logu v epsilon joint0 imc im j theta r grad k).1.gradminus
              (build_tree mo f us logu v epsilon joint0 imc im j theta r grad k).2
            simp only [pow_succ]
            omega
          · simp only [if_neg h2]
            have hle1 := ih theta r grad k
            have hle2 := ih
              (build_tree mo f us logu v epsilon joint0 imc im j theta r grad k).1.thetaplus
              (build_tree mo f us logu v epsilon joint0 imc im j theta r grad k).1.rplus
              (build_tree mo f us logu v epsilon joint0 imc im j theta r grad k).1.gradplus
              (build_tree mo f us logu v epsilon joint0 imc im j theta r grad k).2
            simp only [pow_succ]
            omega
        · simp only [if_neg h1]
          have hle1 := ih theta r grad k
          have hmono : (2:ℕ) ^ j ≤ 2 ^ (j + 1) :=
            Nat.pow_le_pow_right (by norm_num) (Nat.le_succ j)
          omega
  · intro j theta r grad k
    simp only [build_tree]
    by_cases h1 :
      (build_tree mo f us logu v epsilon joint0 imc im j theta r grad k).1.sprime = 1
    · simp only [if_pos h1]
    · simp only [if_neg h1]

/-! ### C9 and C10: the doubling loop -/

theorem loopBody_j (p : LoopParams) (st : LoopState) : (loopBody p st).j = st.j + 1 := rfl

theorem loopBody_s_lt (p : LoopParams) (st : LoopState) (h : (loopBody p st).s = 1) :
    (loopBody p st).j < p.max_tree_depth := by
  simp only [loopBody] at h ⊢
  rw [contFlag_eq_one] at h
  exact h.2.2

theorem loopBody_n_mono (p : LoopParams) (st : LoopState) : st.n ≤ (loopBody p st).n :=
  Nat.le_add_right _ _

theorem innerLoop_isSome_of_inv (p : LoopParams) :
    ∀ (fuel : ℕ) (st : LoopState),
      (st.s = 1 → st.j < p.max_tree_depth ∧ p.max_tree_depth ≤ st.j + fuel) →
      (innerLoop p fuel st).isSome = true := by
  intro fuel
  induction fuel with
  | zero =>
      intro st h
      by_cases hs : st.s = 1
      · exact absurd (h hs) (by omega)
      · simp [innerLoop, hs]
  | succ m ih =>
      intro st h
      by_cases hs : st.s = 1
      · simp only [innerLoop, if_pos hs]
        exact ih (loopBody p st)
          (fun hb => ⟨loopBody_s_lt p st hb, by
            have hj := loopBody_j p st
            have hd := h hs
            omega⟩)
      · simp [innerLoop, hs]

/-- C9 counterexample: the loop is do-while shaped, so with
max_tree_depth = 0 the body still runs once: fuel 0 (no doubling allowed)
is exhausted while s is still 1, and one doubling completes the loop. -/
theorem C9_counterexample :
    innerLoop (pC9 0) 0 stC9 = none ∧ (innerLoop (pC9 0) 1 stC9).isSome = true := by
  constructor
  · rfl
  · norm_num [innerLoop, loopBody, build_tree, leapfrog, stop_criterion, initLoopState,
      contFlag, dot, vadd, vsub, vmul, smul, F.lt, F.le, F.add, F.mul, F.sub, F.neg,
      F.div, F.pymin, F.isFinite, F.ofInt, us0, ozero, moStub, expStub, pC9, stC9]

/-- C9 amended: the doubling loop terminates after at most
max(max_tree_depth, 1) rounds.  The depth counter increases by 1 each
round, a round can only leave the flag s = 1 when its new depth is below
max_tree_depth, and therefore fuel max(max_tree_depth, 1) always suffices
from a fresh state of depth 0 (for max_tree_depth >= 1 this is the claimed
bound of max_tree_depth rounds; the do-while shape makes one round run
even when max_tree_depth = 0). -/
theorem C9_inner_loop_bound (p : LoopParams) :
    (∀ st : LoopState, (loopBody p st).j = st.j + 1) ∧
    (∀ st : LoopState, (loopBody p st).s = 1 → (loopBody p st).j < p.max_tree_depth) ∧
    (∀ st : LoopState, st.j = 0 →
      (innerLoop p (max p.max_tree_depth 1) st).isSome = true) := by
  refine ⟨loopBody_j p, loopBody_s_lt p, ?_⟩
  intro st hj0
  by_cases hs : st.s = 1
  · obtain ⟨m, hm⟩ : ∃ m, max p.max_tree_depth 1 = m + 1 :=
      ⟨max p.max_tree_depth 1 - 1, by omega⟩
    rw [hm]
    simp only [innerLoop, if_pos hs]
    apply innerLoop_isSome_of_inv
    intro hb
    refine ⟨loopBody_s_lt p st hb, ?_⟩
    have hj := loopBody_j p st
    omega
  · exact innerLoop_isSome_of_inv p _ st (fun h1 => absurd h1 hs)

/-- C9 witness: with max_tree_depth = 1 the fresh concrete loop state
finishes within the bound. -/
theorem C9_witness :
    (innerLoop (pC9 1) (max (pC9 1).max_tree_depth 1) stC9).isSome = true :=
  (C9_inner_loop_bound (pC9 1)).2.2 stC9 rfl

/-- C10: nuts6 initializes n to 1 before the doubling loop, the body only
ever adds the subtree count nprime (a Nat) to n, so every state reachable
during the loop has n >= 1 and the denominator float(n) of the Metropolis
ratio min(1, nprime/n) is a nonzero finite scalar: the division never
divides by zero, for every oracle and stream. -/
theorem C10_metropolis_denominator (p : LoopParams) :
    (∀ (lastSample : List F) (lastLnprob logp : F) (grad r0 : List F) (k : ℕ),
      (initLoopState lastSample lastLnprob logp grad r0 k).n = 1) ∧
    (∀ st : LoopState, st.n ≤ (loopBody p st).n) ∧
    (∀ st0 st : LoopState, 1 ≤ st0.n → LoopReach p st0 st →
      1 ≤ st.n ∧ F.fin (st.n : ℚ) ≠ F.fin 0) := by
  refine ⟨fun _ _ _ _ _ _ => rfl, loopBody_n_mono p, ?_⟩
  intro st0 st h0 hreach
  have hn : 1 ≤ st.n := by
    induction hreach with
    | refl => exact h0
    | step hr hs ih => exact le_trans ih (loopBody_n_mono p _)
  refine ⟨hn, ?_⟩
  intro hcon
  have : (st.n : ℚ) = 0 := by injection hcon
  have : st.n = 0 := by exact_mod_cast this
  omega

/-- C10 witness: the denominator is nonzero at the concrete fresh state. -/
theorem C10_witness :
    1 ≤ stC9.n ∧ F.fin ((stC9.n : ℕ) : ℚ) ≠ F.fin 0 :=
  (C10_metropolis_denominator (pC9 1)).2.2 stC9 stC9 (by norm_num [stC9, initLoopState])
    LoopReach.refl

/-! ### C7: input validation of the initial position -/

/-- C7 counterexample: a rank 0 (scalar) initial position is NOT rejected
by the explicit rank check (len(np.shape(theta0)) > 1 is false for an
empty shape); the call instead dies at D = len(theta0) with a TypeError,
which is a different error than the input-validation ValueError the claim
describes. -/
theorem C7_counterexample :
    nuts6 moStub ozero 1 1 0 (PyArr.scalar (F.fin 0)) (F.fin (3/5)) 10 (F.fin 1) false us0 =
      Except.error PyErr.typeError ∧
    PyErr.typeError ≠ PyErr.valueError "theta0 is expected to be a 1-D array" := by
  exact ⟨rfl, by simp⟩

/-- C7 amended: rank >= 2 arrays are rejected immediately with the
input-validation ValueError; rank 0 scalars pass the rank check but the
call still fails immediately afterwards, before any oracle call or
sampling work, with a TypeError at the dimension computation; rank 1
vectors pass validation and the run proceeds.  The failures are
independent of the oracle, fuel and all other arguments, which is the
before-any-oracle-call part of the claim. -/
theorem C7_rank_validation (mo : MathOps) (f : Oracle) (fuel M Madapt : ℕ) (delta : F)
    (d : ℕ) (eps0 : F) (em : Bool) (us : ℕ → F) (theta0 : PyArr) :
    (theta0.rank > 1 →
      nuts6 mo f fuel M Madapt theta0 delta d eps0 em us =
        Except.error (PyErr.valueError "theta0 is expected to be a 1-D array")) ∧
    (theta0.rank = 0 →
      nuts6 mo f fuel M Madapt theta0 delta d eps0 em us =
        Except.error PyErr.typeError) ∧
    (∀ xs : List F, theta0 = PyArr.vec xs →
      nuts6 mo f fuel M Madapt theta0 delta d eps0 em us =
        Except.ok (nuts6Run mo f fuel M Madapt xs delta d eps0 em us)) := by
  refine ⟨?_, ?_, ?_⟩
  · intro hrank
    cases theta0 <;> simp_all [PyArr.rank, nuts6, nuts6Validate]
  · intro hrank
    cases theta0 <;> simp_all [PyArr.rank, nuts6, nuts6Validate]
  · rintro xs rfl
    simp [nuts6, nuts6Validate, PyArr.rank]

/-- C7 witness: a concrete rank 2 input is rejected with the validation
error, and a concrete rank 1 input passes validation. -/
theorem C7_witness :
    nuts6 moStub ozero 1 1 0 (PyArr.mat [[F.fin 0]]) (F.fin (3/5)) 10 (F.fin 1) false us0 =
      Except.error (PyErr.valueError "theta0 is expected to be a 1-D array") ∧
    nuts6 moStub oinf 1 1 0 (PyArr.vec [F.fin 0]) (F.fin (3/5)) 10 (F.fin 1) false us0 =
      Except.ok (nuts6Run moStub oinf 1 1 0 [F.fin 0] (F.fin (3/5)) 10 (F.fin 1) false us0) :=
  ⟨(C7_rank_validation moStub ozero 1 1 0 (F.fin (3/5)) 10 (F.fin 1) false us0
      (PyArr.mat [[F.fin 0]])).1 (by norm_num [PyArr.rank]),
   (C7_rank_validation moStub oinf 1 1 0 (F.fin (3/5)) 10 (F.fin 1) false us0
      (PyArr.vec [F.fin 0])).2.2 [F.fin 0] rfl⟩

/-! ### C8: the always +infinity oracle -/

theorem sub_pinf_not_finite (x : F) : (F.sub F.pinf x).isFinite = false := by
  cases x <;> rfl

/-- Shared helper: with an always +infinity oracle the halving loop of
find_reasonable_epsilon fails for every fuel, because every trial step has
a +infinity log-density. -/
theorem freHalve_inf_none (f : Oracle) (hf : ∀ x, (f x).1 = F.pinf)
    (theta0 r0 grad0 : List F) (epsilon : F) (im : List F) :
    ∀ (fuel : ℕ) (kk : F), freHalve f theta0 r0 grad0 epsilon im fuel kk = none := by
  intro fuel
  induction fuel with
  | zero => intro kk; rfl
  | succ n ih =>
      intro kk
      simp only [freHalve]
      rw [if_neg]
      · exact ih _
      · intro hcon
        have h1 := hcon.1
        rw [show (leapfrog theta0 r0 grad0 (F.mul epsilon kk) f im).2.2.2 =
          (f (leapfrog theta0 r0 grad0 (F.mul epsilon kk) f im).1).1 from rfl, hf] at h1
        exact absurd h1 (by norm_num [F.isFinite])

/-- Shared helper: with such an oracle find_reasonable_epsilon returns
none for every fuel. -/
theorem fre_inf_none (mo : MathOps) (f : Oracle) (hf : ∀ x, (f x).1 = F.pinf)
    (theta0 grad0 : List F) (logp0 eps0 : F) (im : List F) (us : ℕ → F) (k fuel : ℕ) :
    find_reasonable_epsilon mo f theta0 grad0 logp0 eps0 im us k fuel = none := by
  simp only [find_reasonable_epsilon]
  rw [freHalve_inf_none f hf]

/-- C8 amended, part of the development: with an oracle whose log-density
is identically +infinity, the depth 0 tree always returns s = 0, and
find_reasonable_epsilon never returns: its finiteness-halving loop fails
for every fuel, because every trial step has a +infinity log-density. -/
theorem C8_divergence_and_hang (mo : MathOps) (f : Oracle)
    (hf : ∀ x, (f x).1 = F.pinf) :
    (∀ (us : ℕ → F) (logu : F) (v : Int) (epsilon joint0 : F)
       (imc im theta r grad : List F) (k : ℕ),
      (build_tree mo f us logu v epsilon joint0 imc im 0 theta r grad k).1.sprime = 0) ∧
    (∀ (theta0 r0 grad0 : List F) (epsilon : F) (im : List F) (fuel : ℕ) (kk : F),
      freHalve f theta0 r0 grad0 epsilon im fuel kk = none) ∧
    (∀ (theta0 grad0 : List F) (logp0 eps0 : F) (im : List F) (us : ℕ → F) (k fuel : ℕ),
      find_reasonable_epsilon mo f theta0 grad0 logp0 eps0 im us k fuel = none) := by
  refine ⟨?_, fun theta0 r0 grad0 epsilon im => freHalve_inf_none f hf theta0 r0 grad0 epsilon im,
    fun theta0 grad0 logp0 eps0 im us k fuel =>
      fre_inf_none mo f hf theta0 grad0 logp0 eps0 im us k fuel⟩
  intro us logu v epsilon joint0 imc im theta r grad k
  simp only [build_tree]
  rw [if_neg]
  intro hcon
  have h1 := hcon.1
  rw [show (leapfrog theta r grad (F.mul (F.ofInt v) epsilon) f im).2.2.2 =
    (f (leapfrog theta r grad (F.mul (F.ofInt v) epsilon) f im).1).1 from rfl, hf] at h1
  rw [sub_pinf_not_finite] at h1
  exact absurd h1 (by norm_num)

/-- C8 witness: the two facts at concrete inputs. -/
theorem C8_witness :
    (build_tree moStub oinf us0 (F.fin 0) 1 (F.fin 1) (F.fin 0) [F.fin 1] [F.fin 1] 0
      [F.fin 0] [F.fin 0] [F.fin 0] 0).1.sprime = 0 ∧
    find_reasonable_epsilon moStub oinf [F.fin 0] [F.fin 0] F.pinf (F.fin 1) [F.fin 1]
      us0 0 5 = none :=
  ⟨(C8_divergence_and_hang moStub oinf (fun _ => rfl)).1 us0 (F.fin 0) 1 (F.fin 1)
      (F.fin 0) [F.fin 1] [F.fin 1] [F.fin 0] [F.fin 0] [F.fin 0] 0,
   (C8_divergence_and_hang moStub oinf (fun _ => rfl)).2.2 [F.fin 0] [F.fin 0] F.pinf
      (F.fin 1) [F.fin 1] us0 0 5⟩

/-- C8 counterexample to the termination half of the claim: with the
always +infinity oracle, nuts6 never returns for ANY amount of fuel --
the source loops forever inside find_reasonable_epsilon -- so it does not
produce M samples. -/
theorem C8_counterexample :
    ¬ ∃ (fuel : ℕ) (out : List (List F) × List F × (F × List F)),
      nuts6Run moStub oinf fuel 1 0 [F.fin 0] (F.fin (3/5)) 10 (F.fin 1) false us0 =
        some out := by
  rintro ⟨fuel, out, h⟩
  simp only [nuts6Run] at h
  rw [fre_inf_none moStub oinf (fun _ => rfl)] at h
  exact absurd h (by simp)

/-! ### C6: the first returned sample -/

theorem outerIter_samples (g : Globals) (m : ℕ) (st st2 : OuterState)
    (h : outerIter g m st = some st2) :
    ∃ x, st2.samplesRev = x :: st.samplesRev := by
  simp only [outerIter] at h
  split at h
  · exact absurd h (by simp)
  · split at h <;> (injection h with h2; exact ⟨_, by rw [← h2]⟩)

theorem runIters_endsWith (g : Globals) (t0 : List F) :
    ∀ (ms : List ℕ) (st stF : OuterState), runIters g ms st = some stF →
      (∃ pre, st.samplesRev = pre ++ [t0]) → ∃ pre, stF.samplesRev = pre ++ [t0] := by
  intro ms
  induction ms with
  | nil =>
      intro st stF h hpre
      simp only [runIters] at h
      injection h with h2
      rw [← h2]
      exact hpre
  | cons m ms ih =>
      intro st stF h hpre
      simp only [runIters] at h
      split at h
      · exact absurd h (by simp)
      · rename_i st2 hst2
        obtain ⟨x, hx⟩ := outerIter_samples g m st st2 hst2
        obtain ⟨pre, hpre2⟩ := hpre
        exact ih st2 stF h ⟨x :: pre, by rw [hx, hpre2]; rfl⟩

/-- C6 amended: across every successful nuts6 run the sample buffer always
ends (in reversed storage order: begins) with theta0, so the retained
output is the buffer whose FIRST pre-discard row is theta0 with the first
Madapt rows dropped; consequently the first RETURNED sample equals theta0
exactly in the Madapt = 0 case.  (With Madapt >= 1 the returned sequence
starts at buffer row Madapt, which need not be theta0 -- see the
counterexample.) -/
theorem C6_first_sample (mo : MathOps) (f : Oracle) (fuel M Madapt : ℕ)
    (theta0 : List F) (delta : F) (d : ℕ) (eps0 : F) (em : Bool) (us : ℕ → F)
    (out : List (List F) × List F × (F × List F))
    (h : nuts6Run mo f fuel M Madapt theta0 delta d eps0 em us = some out) :
    (∃ pre : List (List F), out.1 = ((pre ++ [theta0]).reverse).drop Madapt) ∧
    (Madapt = 0 → out.1.head? = some theta0) := by
  simp only [nuts6Run] at h
  split at h
  · exact absurd h (by simp)
  · rename_i eps k0 hfre
    split at h
    · exact absurd h (by simp)
    · rename_i stF hrun
      obtain ⟨pre, hpre⟩ := runIters_endsWith _ theta0 _ _ _ hrun ⟨[], rfl⟩
      injection h with h2
      constructor
      · refine ⟨pre, ?_⟩
        rw [← h2]
        simp only [hpre]
      · rintro rfl
        rw [← h2]
        simp [hpre]

set_option maxHeartbeats 2000000 in
/-- Concrete evaluation of the run with M = 1, Madapt = 0: only the
step-size search runs (two bracketing rounds, ending at epsilon = 1/4) and
the single sample row is theta0 itself. -/
theorem nuts6Run_eval_M1 :
    nuts6Run moStub oC6 5 1 0 [F.fin 0] (F.fin (3/5)) 10 (F.fin 1) false usC6 =
      some ([[F.fin 0]], [F.fin 0], (F.fin (1/4), [F.fin 1])) := by
  norm_num [nuts6Run, find_reasonable_epsilon, freHalve, freBracket, drawVec, runIters,
    leapfrog, dot, vadd, vsub, vmul, smul, List.range_succ, List.range_zero,
    F.lt, F.le, F.add, F.mul, F.sub, F.neg, F.div, F.pymin, F.pymax, F.isFinite, F.ofInt,
    moStub, expStub, logStub, sqrtStub, powStub, oC6, usC6, List.range']

set_option maxHeartbeats 8000000 in
/-- Concrete evaluation of the one round the doubling loop of the
counterexample run performs: it accepts the point -1/4, and the momentum
sign flip makes the stop criterion fail, so s drops to 0. -/
theorem loopBodyC6_eval :
    loopBody
      { mo := { exp := expStub, log := logStub, sqrt := sqrtStub, pow := powStub },
        f := oC6, us := usC6, logu := F.fin (-1), epsilon := F.fin (1/4),
        joint := F.fin (-(1/2)), inv_mass_chol := [F.fin 1], inv_mass := [F.fin 1],
        max_tree_depth := 10 }
      (initLoopState [F.fin 0] (F.fin 0) (F.fin 0) [F.fin 0] [F.fin (-1)] 3) =
    { thetaminus := [F.fin 0], rminus := [F.fin (-1)], gradminus := [F.fin 0],
      thetaplus := [F.fin (-1/4)], rplus := [F.fin 1], gradplus := [F.fin 16],
      sample := [F.fin (-1/4)], lnprobm := F.fin (-1/8), logp := F.fin (-1/8),
      grad := [F.fin 16], j := 1, n := 2, s := 0, alpha := F.fin (8/9),
      nalpha := 1, k := 5 } := by
  norm_num [loopBody, initLoopState, build_tree, leapfrog, stop_criterion,
    contFlag, dot, vadd, vsub, vmul, smul,
    F.lt, F.le, F.add, F.mul, F.sub, F.neg, F.div, F.pymin, F.pymax, F.isFinite, F.ofInt,
    expStub, logStub, sqrtStub, powStub, oC6, usC6]

/-- Concrete evaluation of the doubling loop of the counterexample run:
after that single round the flag is 0 and the loop returns. -/
theorem innerC6_eval :
    innerLoop
      { mo := { exp := expStub, log := logStub, sqrt := sqrtStub, pow := powStub },
        f := oC6, us := usC6, logu := F.fin (-1), epsilon := F.fin (1/4),
        joint := F.fin (-(1/2)), inv_mass_chol := [F.fin 1], inv_mass := [F.fin 1],
        max_tree_depth := 10 }
      10 (initLoopState [F.fin 0] (F.fin 0) (F.fin 0) [F.fin 0] [F.fin (-1)] 3) =
    some
      { thetaminus := [F.fin 0], rminus := [F.fin (-1)], gradminus := [F.fin 0],
        thetaplus := [F.fin (-1/4)], rplus := [F.fin 1], gradplus := [F.fin 16],
        sample := [F.fin (-1/4)], lnprobm := F.fin (-1/8), logp := F.fin (-1/8),
        grad := [F.fin 16], j := 1, n := 2, s := 0, alpha := F.fin (8/9),
        nalpha := 1, k := 5 } := by
  rw [show
    innerLoop
      { mo := { exp := expStub, log := logStub, sqrt := sqrtStub, pow := powStub },
        f := oC6, us := usC6, logu := F.fin (-1), epsilon := F.fin (1/4),
        joint := F.fin (-(1/2)), inv_mass_chol := [F.fin 1], inv_mass := [F.fin 1],
        max_tree_depth := 10 }
      10 (initLoopState [F.fin 0] (F.fin 0) (F.fin 0) [F.fin 0] [F.fin (-1)] 3) =
    innerLoop
      { mo := { exp := expStub, log := logStub, sqrt := sqrtStub, pow := powStub },
        f := oC6, us := usC6, logu := F.fin (-1), epsilon := F.fin (1/4),
        joint := F.fin (-(1/2)), inv_mass_chol := [F.fin 1], inv_mass := [F.fin 1],
        max_tree_depth := 10 }
      9 (loopBody
        { mo := { exp := expStub, log := logStub, sqrt := sqrtStub, pow := powStub },
          f := oC6, us := usC6, logu := F.fin (-1), epsilon := F.fin (1/4),
          joint := F.fin (-(1/2)), inv_mass_chol := [F.fin 1], inv_mass := [F.fin 1],
          max_tree_depth := 10 }
        (initLoopState [F.fin 0] (F.fin 0) (F.fin 0) [F.fin 0] [F.fin (-1)] 3)) from rfl]
  rw [loopBodyC6_eval]
  rfl

set_option maxHeartbeats 8000000 in
/-- Concrete evaluation of the burn-in outer iteration m = 1 of the
counterexample run, using the doubling-loop value just computed. -/
theorem outerC6_eval :
    outerIter
      { mo := { exp := expStub, log := logStub, sqrt := sqrtStub, pow := powStub },
        f := oC6, us := usC6, M := 1, Madapt := 1, delta := F.fin (3/5),
        max_tree_depth := 10, estimate_mass := false, mu := F.fin 0, D := 1 }
      1
      { samplesRev := [[F.fin 0]], lnprobRev := [F.fin 0], lastSample := [F.fin 0],
        lastLnprob := F.fin 0, logp := F.fin 0, grad := [F.fin 0],
        logepsilon := F.fin 0, logepsilonbar := F.fin 0, Hbar := F.fin 0,
        m_adapt := 1, diag_mass_avg := [F.fin 1], diag_mass_N := 1,
        mass_chol := [F.fin 1], inv_mass := [F.fin 1], inv_mass_chol := [F.fin 1],
        epsilon := F.fin (1/4), k := 1 } =
    some
      { samplesRev := [[F.fin (-1/4)], [F.fin 0]],
        lnprobRev := [F.fin (-1/8), F.fin 0], lastSample := [F.fin (-1/4)],
        lastLnprob := F.fin (-1/8), logp := F.fin (-1/8), grad := [F.fin 16],
        logepsilon := F.fin (52/99), logepsilonbar := F.fin (52/99),
        Hbar := F.fin (-13/495), m_adapt := 2, diag_mass_avg := [F.fin 1],
        diag_mass_N := 1, mass_chol := [F.fin 1], inv_mass := [F.fin 1],
        inv_mass_chol := [F.fin 1], epsilon := F.fin (151/99), k := 5 } := by
  norm_num [outerIter, innerC6_eval, drawVec, dot, vadd, vsub, vmul, smul,
    List.range_succ, List.range_zero, List.range',
    F.lt, F.le, F.add, F.mul, F.sub, F.neg, F.div, F.pymin, F.pymax, F.isFinite, F.ofInt,
    expStub, logStub, sqrtStub, powStub, oC6, usC6]

set_option maxHeartbeats 8000000 in
/-- Concrete evaluation of the single burn-in outer iteration of the
counterexample run: the momentum draw is -1, the first doubling accepts
the point -1/4 and flips the momentum sign so the stop criterion fires at
once, and dual averaging moves logepsilon to 52/99. -/
theorem runItersC6_eval :
    runIters
      { mo := { exp := expStub, log := logStub, sqrt := sqrtStub, pow := powStub },
        f := oC6, us := usC6, M := 1, Madapt := 1, delta := F.fin (3/5),
        max_tree_depth := 10, estimate_mass := false, mu := F.fin 0, D := 1 }
      [1]
      { samplesRev := [[F.fin 0]], lnprobRev := [F.fin 0], lastSample := [F.fin 0],
        lastLnprob := F.fin 0, logp := F.fin 0, grad := [F.fin 0],
        logepsilon := F.fin 0, logepsilonbar := F.fin 0, Hbar := F.fin 0,
        m_adapt := 1, diag_mass_avg := [F.fin 1], diag_mass_N := 1,
        mass_chol := [F.fin 1], inv_mass := [F.fin 1], inv_mass_chol := [F.fin 1],
        epsilon := F.fin (1/4), k := 1 } =
    some
      { samplesRev := [[F.fin (-1/4)], [F.fin 0]],
        lnprobRev := [F.fin (-1/8), F.fin 0], lastSample := [F.fin (-1/4)],
        lastLnprob := F.fin (-1/8), logp := F.fin (-1/8), grad := [F.fin 16],
        logepsilon := F.fin (52/99), logepsilonbar := F.fin (52/99),
        Hbar := F.fin (-13/495), m_adapt := 2, diag_mass_avg := [F.fin 1],
        diag_mass_N := 1, mass_chol := [F.fin 1], inv_mass := [F.fin 1],
        inv_mass_chol := [F.fin 1], epsilon := F.fin (151/99), k := 5 } := by
  norm_num [runIters, outerC6_eval]

set_option maxHeartbeats 8000000 in
/-- C6 counterexample: a run with Madapt = 1, M = 1 in which the single
burn-in iteration accepts the point -1/4 during its first (and only)
doubling: the returned sequence, after discarding the Madapt = 1 burn-in
rows, then starts with [-1/4], not with theta0 = [0]. -/
theorem C6_counterexample :
    (nuts6Run moStub oC6 5 1 1 [F.fin 0] (F.fin (3/5)) 10 (F.fin 1) false usC6).map
        (fun out => out.1.head?) = some (some [F.fin (-1/4)]) ∧
    ([F.fin (-1/4)] : List F) ≠ [F.fin 0] := by
  constructor
  · norm_num [nuts6Run, find_reasonable_epsilon, freHalve, freBracket, drawVec, leapfrog,
      dot, vadd, vsub, vmul, smul, List.range_succ, List.range_zero, List.range',
      F.lt, F.le, F.add, F.mul, F.sub, F.neg, F.div, F.pymin, F.pymax, F.isFinite, F.ofInt,
      moStub, expStub, logStub, sqrtStub, powStub, oC6, usC6, runItersC6_eval]
  · norm_num

/-- C6 witness: for the concrete Madapt = 0 run the first returned sample
is theta0. -/
theorem C6_witness :
    (([[F.fin 0]], [F.fin 0], (F.fin (1/4), [F.fin 1])) :
        List (List F) × List F × (F × List F)).1.head? = some [F.fin 0] :=
  (C6_first_sample moStub oC6 5 1 0 [F.fin 0] (F.fin (3/5)) 10 (F.fin 1) false usC6
    ([[F.fin 0]], [F.fin 0], (F.fin (1/4), [F.fin 1])) nuts6Run_eval_M1).2 rfl

